import Mathlib

/-!
Verification of the claims about `io_import_wad2.py` (Quake WAD2/BSP texture
importer).  The definitions below are a shallow embedding of the importer's
`ImportQuakeWad.execute` pipeline (source lines are cited next to each
definition).  Names are modelled as `List Char` (Python `str` over ASCII data);
pixel component values are modelled as `ℚ` (Python floats here are exact
quotients `rgb/255`, `0` and `1`, and the claims only compare such values for
equality); byte buffers are `List Nat` with each entry in `0..255`.

Blender (`bpy`) interfaces are external collaborators: images and materials are
modelled as records of the data the importer stores in them, shader-node graph
construction is not modelled, and the external image loader used by the
foreign-image fallback path is modelled by the data it reports (`imgDepth`,
`lumaDepth`, `relName`, `dirTag` fields of `FileInput`).  Python exceptions
(struct.error, IndexError, ValueError, KeyError, UnicodeDecodeError,
AttributeError) are modelled with `Except PyErr`; the importer installs no
exception handler, so an error aborts the remainder of the import batch.
-/

namespace Wad2

/-- Python `str.lower()` for ASCII data (maps `A`-`Z` to `a`-`z`). -/
def pyLower (s : List Char) : List Char := s.map Char.toLower

/-- Python `name.startswith(p)`: `p` is an initial segment of `s`. -/
def pyStartswith (p s : List Char) : Bool := decide (p = s.take p.length)

/-- Python `name.endswith(p)`: `p` is a final segment of `s`. -/
def pyEndswith (p s : List Char) : Bool := decide (p = s.drop (s.length - p.length))

/-- Python `s.rfind(c)`: index of the last occurrence of `c`, or `-1`. -/
def pyRfind (s : List Char) (c : Char) : Int :=
  match s.reverse.findIdx? (fun x => x = c) with
  | some i => (s.length : Int) - 1 - i
  | none => -1

/-- Python slice `s[:i]` with a possibly negative bound (counts from the end). -/
def pySliceTo (s : List Char) (i : Int) : List Char :=
  if 0 ≤ i then s.take i.toNat else s.take (s.length - (-i).toNat)

/-- Python slice `s[i:]` with a nonnegative bound. -/
def pySliceFrom (s : List Char) (i : Nat) : List Char := s.drop i

/-- Python `s.strip(cs)`: drop characters of `cs` from both ends. -/
def pyStrip (cs : List Char) (s : List Char) : List Char :=
  ((s.dropWhile (fun c => c ∈ cs)).reverse.dropWhile (fun c => c ∈ cs)).reverse

/-- Python `s.replace(a, b)` for single-character `a`, `b`. -/
def pyReplace (a b : Char) (s : List Char) : List Char :=
  s.map (fun c => if c = a then b else c)

/-- Quake's default 256-entry RGB palette, source lines 836-899 (flat list of
768 byte values, three per palette entry). -/
def quake1palette : List Nat := [
  0, 0, 0, 15, 15, 15, 31, 31, 31, 47, 47, 47,
  63, 63, 63, 75, 75, 75, 91, 91, 91, 107, 107, 107,
  123, 123, 123, 139, 139, 139, 155, 155, 155, 171, 171, 171,
  187, 187, 187, 203, 203, 203, 219, 219, 219, 235, 235, 235,
  15, 11, 7, 23, 15, 11, 31, 23, 11, 39, 27, 15,
  47, 35, 19, 55, 43, 23, 63, 47, 23, 75, 55, 27,
  83, 59, 27, 91, 67, 31, 99, 75, 31, 107, 83, 31,
  115, 87, 31, 123, 95, 35, 131, 103, 35, 143, 111, 35,
  11, 11, 15, 19, 19, 27, 27, 27, 39, 39, 39, 51,
  47, 47, 63, 55, 55, 75, 63, 63, 87, 71, 71, 103,
  79, 79, 115, 91, 91, 127, 99, 99, 139, 107, 107, 151,
  115, 115, 163, 123, 123, 175, 131, 131, 187, 139, 139, 203,
  0, 0, 0, 7, 7, 0, 11, 11, 0, 19, 19, 0,
  27, 27, 0, 35, 35, 0, 43, 43, 7, 47, 47, 7,
  55, 55, 7, 63, 63, 7, 71, 71, 7, 75, 75, 11,
  83, 83, 11, 91, 91, 11, 99, 99, 11, 107, 107, 15,
  7, 0, 0, 15, 0, 0, 23, 0, 0, 31, 0, 0,
  39, 0, 0, 47, 0, 0, 55, 0, 0, 63, 0, 0,
  71, 0, 0, 79, 0, 0, 87, 0, 0, 95, 0, 0,
  103, 0, 0, 111, 0, 0, 119, 0, 0, 127, 0, 0,
  19, 19, 0, 27, 27, 0, 35, 35, 0, 47, 43, 0,
  55, 47, 0, 67, 55, 0, 75, 59, 7, 87, 67, 7,
  95, 71, 7, 107, 75, 11, 119, 83, 15, 131, 87, 19,
  139, 91, 19, 151, 95, 27, 163, 99, 31, 175, 103, 35,
  35, 19, 7, 47, 23, 11, 59, 31, 15, 75, 35, 19,
  87, 43, 23, 99, 47, 31, 115, 55, 35, 127, 59, 43,
  143, 67, 51, 159, 79, 51, 175, 99, 47, 191, 119, 47,
  207, 143, 43, 223, 171, 39, 239, 203, 31, 255, 243, 27,
  11, 7, 0, 27, 19, 0, 43, 35, 15, 55, 43, 19,
  71, 51, 27, 83, 55, 35, 99, 63, 43, 111, 71, 51,
  127, 83, 63, 139, 95, 71, 155, 107, 83, 167, 123, 95,
  183, 135, 107, 195, 147, 123, 211, 163, 139, 227, 179, 151,
  171, 139, 163, 159, 127, 151, 147, 115, 135, 139, 103, 123,
  127, 91, 111, 119, 83, 99, 107, 75, 87, 95, 63, 75,
  87, 55, 67, 75, 47, 55, 67, 39, 47, 55, 31, 35,
  43, 23, 27, 35, 19, 19, 23, 11, 11, 15, 7, 7,
  187, 115, 159, 175, 107, 143, 163, 95, 131, 151, 87, 119,
  139, 79, 107, 127, 75, 95, 115, 67, 83, 107, 59, 75,
  95, 51, 63, 83, 43, 55, 71, 35, 43, 59, 31, 35,
  47, 23, 27, 35, 19, 19, 23, 11, 11, 15, 7, 7,
  219, 195, 187, 203, 179, 167, 191, 163, 155, 175, 151, 139,
  163, 135, 123, 151, 123, 111, 135, 111, 95, 123, 99, 83,
  107, 87, 71, 95, 75, 59, 83, 63, 51, 67, 51, 39,
  55, 43, 31, 39, 31, 23, 27, 19, 15, 15, 11, 7,
  111, 131, 123, 103, 123, 111, 95, 115, 103, 87, 107, 95,
  79, 99, 87, 71, 91, 79, 63, 83, 71, 55, 75, 63,
  47, 67, 55, 43, 59, 47, 35, 51, 39, 31, 43, 31,
  23, 35, 23, 15, 27, 19, 11, 19, 11, 7, 11, 7,
  255, 243, 27, 239, 223, 23, 219, 203, 19, 203, 183, 15,
  187, 167, 15, 171, 151, 11, 155, 131, 7, 139, 115, 7,
  123, 99, 7, 107, 83, 0, 91, 71, 0, 75, 55, 0,
  59, 43, 0, 43, 31, 0, 27, 15, 0, 11, 7, 0,
  0, 0, 255, 11, 11, 239, 19, 19, 223, 27, 27, 207,
  35, 35, 191, 43, 43, 175, 47, 47, 159, 47, 47, 143,
  47, 47, 127, 47, 47, 111, 47, 47, 95, 43, 43, 79,
  35, 35, 63, 27, 27, 47, 19, 19, 31, 11, 11, 15,
  43, 0, 0, 59, 0, 0, 75, 7, 0, 95, 7, 0,
  111, 15, 0, 127, 23, 7, 147, 31, 7, 163, 39, 11,
  183, 51, 15, 195, 75, 27, 207, 99, 43, 219, 127, 59,
  227, 151, 79, 231, 171, 95, 239, 191, 119, 247, 211, 139,
  167, 123, 59, 183, 155, 55, 199, 195, 55, 231, 227, 87,
  127, 191, 255, 171, 231, 255, 215, 255, 255, 103, 0, 0,
  139, 0, 0, 179, 0, 0, 215, 0, 0, 255, 0, 0,
  255, 243, 147, 255, 247, 199, 255, 255, 255, 159, 91, 83]

/-- Source line 83: `pal_float = [rgb/255 for rgb in quake1palette]`. -/
def pal_float : List ℚ := quake1palette.map (fun rgb => (rgb : ℚ) / 255)

/-- Python truthiness of a bool appended into an image pixel buffer
(`True` becomes `1.0`, `False` becomes `0.0`). -/
def boolToQ (b : Bool) : ℚ := if b then 1 else 0

/-- The two pixel buffers built by the indexed-to-RGBA conversion
(`pix_rgba` and `pix_emit`, source lines 219-220, 237-257). -/
structure PixBufs where
  rgba : List ℚ
  emit : List ℚ
deriving DecidableEq, Repr

/-- Python `[0,0,0,1]*n` (the lazily back-filled emission prefix, line 256). -/
def backfill (n : Nat) : List ℚ := (List.replicate n ([0, 0, 0, 1] : List ℚ)).flatten

/-- Source line 241: `color = palette[pixel*3 : pixel*3+3]`. -/
def colorOf (palette : List ℚ) (pixel : Nat) : List ℚ :=
  (palette.drop (pixel * 3)).take 3

/-- Source line 242: `alpha = pixel != 255 or name[0] != '{'`.  The name is
nonempty whenever this runs in the importer (line 200 has already indexed
`name[0]`); `headD` with an arbitrary default stands in for `name[0]`. -/
def alphaOf (name : List Char) (pixel : Nat) : Bool :=
  (pixel != 255) || (name.headD ' ' != '{')

/-- Source lines 243-244: `notfb = pixel < 224 or name.startswith(('sky','*'))`. -/
def notfbOf (name : List Char) (pixel : Nat) : Bool :=
  decide (pixel < 224) || pyStartswith ['s', 'k', 'y'] name || pyStartswith ['*'] name

/-- One iteration of the per-pixel loop body, source lines 240-257.  `row` and
`clm` are the Python loop variables; out-of-range pixel access cannot occur in
the importer (the buffer length is checked against `w*h` by the decoder model,
matching the IndexError Python would raise), so `getD` is used here. -/
def classifyPixel (luma : Bool) (name : List Char) (palette : List ℚ)
    (pixels : List Nat) (w h row clm : Nat) (st : PixBufs) : PixBufs :=
  let pixel := pixels.getD (row * w + clm) 0
  let color := colorOf palette pixel
  let alpha := alphaOf name pixel
  let notfb := notfbOf name pixel
  if notfb || !alpha then
    { rgba := st.rgba ++ color ++ [boolToQ alpha]
      emit := if st.emit.isEmpty then st.emit else st.emit ++ [0, 0, 0, 1] }
  else
    { rgba := if luma then st.rgba ++ [0, 0, 0, 1] else st.rgba ++ color ++ [boolToQ alpha]
      emit := (if st.emit.isEmpty then backfill ((h - row - 1) * w + clm) else st.emit)
                ++ color ++ [boolToQ alpha] }

/-- The iteration order of the nested loops `for row in reversed(range(h)):
for clm in range(w):` (source lines 238-239). -/
def pixelOrder (w h : Nat) : List (Nat × Nat) :=
  (List.range h).reverse.flatMap (fun row => (List.range w).map (fun clm => (row, clm)))

/-- The indexed-to-RGBA conversion, source lines 238-257: fold the per-pixel
body over the row-reversed iteration order, starting from two empty buffers. -/
def classify (luma : Bool) (name : List Char) (palette : List ℚ)
    (pixels : List Nat) (w h : Nat) : PixBufs :=
  (pixelOrder w h).foldl
    (fun st rc => classifyPixel luma name palette pixels w h rc.1 rc.2 st)
    ⟨[], []⟩

/-- The pixel index value the loop body reads for iteration `(row, clm)`. -/
def srcAt (pixels : List Nat) (w : Nat) (rc : Nat × Nat) : Nat :=
  pixels.getD (rc.1 * w + rc.2) 0

/-- Whether a pixel takes the fullbright ("glow") branch of the classifier
(lines 249-257): not `notfb` and not transparent. -/
def glowP (name : List Char) (pixel : Nat) : Bool :=
  !(notfbOf name pixel || !alphaOf name pixel)

/-- The RGBA quadruple the loop body appends to `pix_rgba` for one pixel. -/
def quadColor (luma : Bool) (name : List Char) (palette : List ℚ) (pixel : Nat) : List ℚ :=
  if glowP name pixel then
    (if luma then [0, 0, 0, 1] else colorOf palette pixel ++ [boolToQ (alphaOf name pixel)])
  else colorOf palette pixel ++ [boolToQ (alphaOf name pixel)]

/-- The RGBA quadruple one pixel contributes to the emission buffer (either
directly, or as the `(0,0,0,1)` filler). -/
def quadEmit (name : List Char) (palette : List ℚ) (pixel : Nat) : List ℚ :=
  if glowP name pixel then colorOf palette pixel ++ [boolToQ (alphaOf name pixel)]
  else [0, 0, 0, 1]

/-- Position of iteration `(row, clm)` in the output buffers, matching the
`initsize` formula of source line 255. -/
def posOf (w h : Nat) (rc : Nat × Nat) : Nat := (h - rc.1 - 1) * w + rc.2

theorem backfill_succ (n : Nat) : backfill (n + 1) = backfill n ++ [0, 0, 0, 1] := by
  simp [backfill, List.replicate_succ']

/-- One pixel step, re-expressed through the per-pixel quadruples. -/
theorem classifyPixel_eq (luma : Bool) (name : List Char) (palette : List ℚ)
    (pixels : List Nat) (w h row clm : Nat) (st : PixBufs) :
    classifyPixel luma name palette pixels w h row clm st =
      { rgba := st.rgba ++ quadColor luma name palette (srcAt pixels w (row, clm))
        emit :=
          if glowP name (srcAt pixels w (row, clm)) then
            (if st.emit.isEmpty then backfill (posOf w h (row, clm)) else st.emit)
              ++ quadEmit name palette (srcAt pixels w (row, clm))
          else if st.emit.isEmpty then st.emit
          else st.emit ++ quadEmit name palette (srcAt pixels w (row, clm)) } := by
  have hsrc : srcAt pixels w (row, clm) = pixels.getD (row * w + clm) 0 := rfl
  simp only [classifyPixel, quadColor, quadEmit, glowP, posOf, hsrc]
  cases hnf : notfbOf name (pixels.getD (row * w + clm) 0)
      || !alphaOf name (pixels.getD (row * w + clm) 0) <;>
    cases luma <;> simp [hnf, List.append_assoc]

/-- Characterization of the pixel fold over any iteration list whose positions
are consecutive starting at `n`: the color buffer is the concatenation of the
per-pixel color quadruples, and the emission buffer is empty when no pixel
glows, otherwise the concatenation of the per-pixel emission quadruples
(back-filled with `(0,0,0,1)` before the first glowing pixel). -/
theorem classify_go_spec (luma : Bool) (name : List Char) (palette : List ℚ)
    (pixels : List Nat) (w h : Nat) :
    ∀ (ps : List (Nat × Nat)) (n : Nat) (st : PixBufs),
      ps.map (posOf w h) = List.range' n ps.length →
      ps.foldl (fun st rc => classifyPixel luma name palette pixels w h rc.1 rc.2 st) st =
        { rgba := st.rgba
            ++ (ps.map (fun rc => quadColor luma name palette (srcAt pixels w rc))).flatten
          emit :=
            if st.emit.isEmpty then
              (if ps.any (fun rc => glowP name (srcAt pixels w rc)) then
                backfill n
                  ++ (ps.map (fun rc => quadEmit name palette (srcAt pixels w rc))).flatten
              else [])
            else st.emit
              ++ (ps.map (fun rc => quadEmit name palette (srcAt pixels w rc))).flatten }
  | [], n, st, _ => by
      obtain ⟨srgba, semit⟩ := st
      cases semit <;> simp
  | rc :: tl, n, st, hmap => by
      simp only [List.map_cons, List.length_cons, List.range'_succ, List.cons.injEq] at hmap
      obtain ⟨h1, h2⟩ := hmap
      rw [List.foldl_cons, classifyPixel_eq]
      have hrc : (rc.1, rc.2) = rc := rfl
      rw [hrc]
      rw [classify_go_spec luma name palette pixels w h tl (n + 1) _ h2]
      obtain ⟨srgba, semit⟩ := st
      cases hg : glowP name (srcAt pixels w rc) <;> cases semit <;>
        simp only [hg, h1, backfill_succ, List.append_assoc, quadEmit, List.isEmpty_nil,
          List.isEmpty_cons, List.map_cons, List.flatten_cons, List.any_cons, Bool.false_or,
          Bool.true_or, Bool.or_false, Bool.or_true, if_true, if_false, Bool.false_eq_true,
          ite_false, ite_true, List.nil_append, List.append_nil] <;>
        simp [List.isEmpty_iff, List.append_assoc]

theorem pixelOrder_succ (w h : Nat) :
    pixelOrder w (h + 1) = (List.range w).map (fun clm => (h, clm)) ++ pixelOrder w h := by
  unfold pixelOrder
  rw [List.range_succ, List.reverse_append]
  simp

theorem pixelOrder_mem {w h : Nat} {rc : Nat × Nat} (hm : rc ∈ pixelOrder w h) :
    rc.1 < h ∧ rc.2 < w := by
  unfold pixelOrder at hm
  simp only [List.mem_flatMap, List.mem_reverse, List.mem_range, List.mem_map] at hm
  obtain ⟨row, hrow, clm, hclm, rfl⟩ := hm
  exact ⟨hrow, hclm⟩

/-- The iteration positions are exactly `0, 1, ..., h*w - 1` in order. -/
theorem pixelOrder_map_posOf (w : Nat) :
    ∀ h, (pixelOrder w h).map (posOf w h) = List.range' 0 (h * w)
  | 0 => by simp [pixelOrder]
  | h + 1 => by
      rw [pixelOrder_succ, List.map_append]
      have hhead : ((List.range w).map (fun clm => (h, clm))).map (posOf w (h + 1))
          = List.range' 0 w := by
        rw [List.map_map]
        have heq : (posOf w (h + 1)) ∘ (fun clm => (h, clm)) = fun clm => clm := by
          funext c
          simp [posOf]
        rw [heq, ← List.range_eq_range' w]
        exact List.map_id _
      have htail : (pixelOrder w h).map (posOf w (h + 1)) = List.range' w (h * w) := by
        have hcongr : (pixelOrder w h).map (posOf w (h + 1))
            = (pixelOrder w h).map ((fun x => w + x) ∘ posOf w h) := by
          apply List.map_congr_left
          intro rc hm
          have h1 := (pixelOrder_mem hm).1
          show (h + 1 - rc.1 - 1) * w + rc.2 = w + ((h - rc.1 - 1) * w + rc.2)
          have hs : h + 1 - rc.1 - 1 = (h - rc.1 - 1) + 1 := by omega
          rw [hs, Nat.succ_mul]
          omega
        rw [hcongr, ← List.map_map, pixelOrder_map_posOf w h, List.map_add_range']
        norm_num
      rw [hhead, htail]
      have h0 : List.range' w (h * w) = List.range' (0 + w) (h * w) := by norm_num
      rw [h0, List.range'_append_1]
      congr 1
      ring

theorem pixelOrder_length (w h : Nat) : (pixelOrder w h).length = h * w := by
  have := congrArg List.length (pixelOrder_map_posOf w h)
  simpa using this

/-- The classifier output, in closed form: the color buffer is the
concatenation of the per-pixel color quadruples in iteration order; the
emission buffer is empty when no pixel glows, and otherwise the concatenation
of the per-pixel emission quadruples. -/
theorem classify_eq (luma : Bool) (name : List Char) (palette : List ℚ)
    (pixels : List Nat) (w h : Nat) :
    classify luma name palette pixels w h =
      { rgba := ((pixelOrder w h).map
          (fun rc => quadColor luma name palette (srcAt pixels w rc))).flatten
        emit :=
          if (pixelOrder w h).any (fun rc => glowP name (srcAt pixels w rc)) then
            ((pixelOrder w h).map (fun rc => quadEmit name palette (srcAt pixels w rc))).flatten
          else [] } := by
  unfold classify
  rw [classify_go_spec luma name palette pixels w h (pixelOrder w h) 0 ⟨[], []⟩
      (by rw [pixelOrder_length]; exact pixelOrder_map_posOf w h)]
  simp [backfill]

theorem colorOf_length (palette : List ℚ) (pixel : Nat) (hpal : palette.length = 768)
    (hv : pixel < 256) : (colorOf palette pixel).length = 3 := by
  simp only [colorOf, List.length_take, List.length_drop, hpal]
  omega

theorem quadColor_length (luma : Bool) (name : List Char) (palette : List ℚ) (pixel : Nat)
    (hpal : palette.length = 768) (hv : pixel < 256) :
    (quadColor luma name palette pixel).length = 4 := by
  unfold quadColor
  split
  · split
    · rfl
    · simp [colorOf_length palette pixel hpal hv]
  · simp [colorOf_length palette pixel hpal hv]

theorem quadEmit_length (name : List Char) (palette : List ℚ) (pixel : Nat)
    (hpal : palette.length = 768) (hv : pixel < 256) :
    (quadEmit name palette pixel).length = 4 := by
  unfold quadEmit
  split
  · simp [colorOf_length palette pixel hpal hv]
  · rfl

theorem flatten_length_const {α : Type} (k : Nat) :
    ∀ (l : List (List α)), (∀ x ∈ l, x.length = k) → l.flatten.length = k * l.length
  | [], _ => by simp
  | a :: t, hl => by
      have ha : a.length = k := hl a (by simp)
      have ht := flatten_length_const k t (fun x hx => hl x (by simp [hx]))
      simp only [List.flatten_cons, List.length_append, List.length_cons, ha, ht, Nat.mul_succ]
      omega

/-- Reading the `j`-th length-4 chunk out of a concatenation of length-4
chunks returns the `j`-th chunk. -/
theorem flatten_chunk {α : Type} :
    ∀ (l : List (List α)) (j : Nat), (∀ x ∈ l, x.length = 4) → j < l.length →
      (l.flatten.drop (4 * j)).take 4 = l.getD j []
  | [], j, _, hj => by simp at hj
  | a :: t, 0, hl, _ => by
      have ha : a.length = 4 := hl a (by simp)
      simp only [Nat.mul_zero, List.drop_zero, List.flatten_cons]
      rw [List.take_left' ha]
      rfl
  | a :: t, j + 1, hl, hj => by
      have ha : a.length = 4 := hl a (by simp)
      rw [List.flatten_cons]
      have h4 : 4 * (j + 1) = a.length + 4 * j := by omega
      rw [h4, List.drop_append]
      exact flatten_chunk t j (fun x hx => hl x (by simp [hx])) (by simpa using hj)

/-- Element `(h-1-r)*w + c` of the iteration order is the pair `(r, c)`. -/
theorem pixelOrder_getD (w : Nat) :
    ∀ (h r c : Nat), r < h → c < w →
      (pixelOrder w h).getD ((h - 1 - r) * w + c) (0, 0) = (r, c)
  | 0, r, c, hr, _ => by omega
  | h + 1, r, c, hr, hc => by
      rw [pixelOrder_succ]
      by_cases hrh : r = h
      · subst hrh
        have hz : r + 1 - 1 - r = 0 := by omega
        have hidx : (r + 1 - 1 - r) * w + c = c := by rw [hz]; simp
        rw [hidx]
        have hcl : c < ((List.range w).map (fun clm => (r, clm))).length := by
          simpa using hc
        rw [List.getD_eq_getElem?_getD, List.getElem?_append_left hcl]
        simp [List.getElem?_map, List.getElem?_range hc]
      · have hrlt : r < h := by omega
        have hidx : (h + 1 - 1 - r) * w + c = ((List.range w).map (fun clm => (h, clm))).length
            + ((h - 1 - r) * w + c) := by
          simp only [List.length_map, List.length_range]
          have hs : h - r = (h - 1 - r) + 1 := by omega
          have hs1 : h + 1 - 1 - r = h - r := by omega
          calc (h + 1 - 1 - r) * w + c = (h - r) * w + c := by rw [hs1]
            _ = ((h - 1 - r) + 1) * w + c := by rw [hs]
            _ = w + ((h - 1 - r) * w + c) := by rw [Nat.succ_mul]; omega
        rw [hidx, List.getD_eq_getElem?_getD, List.getElem?_append_right (by omega)]
        have : ((List.range w).map (fun clm => (h, clm))).length
            + ((h - 1 - r) * w + c) - ((List.range w).map (fun clm => (h, clm))).length
            = (h - 1 - r) * w + c := by omega
        rw [this, ← List.getD_eq_getElem?_getD]
        exact pixelOrder_getD w h r c hrlt hc

theorem getD_lt_256 (pixels : List Nat) (hv : ∀ v ∈ pixels, v < 256) (i : Nat) :
    pixels.getD i 0 < 256 := by
  rw [List.getD_eq_getElem?_getD]
  cases hp : pixels[i]? with
  | none => simp
  | some v => simpa using hv v (List.getElem?_mem hp)

theorem getD_map_of_lt {α β : Type} (f : α → β) (l : List α) (j : Nat) (d : α) (d' : β)
    (hj : j < l.length) : (l.map f).getD j d' = f (l.getD j d) := by
  rw [List.getD_eq_getElem?_getD, List.getD_eq_getElem?_getD, List.getElem?_map]
  cases hp : l[j]? with
  | none =>
      exfalso
      rw [List.getElem?_eq_none_iff] at hp
      omega
  | some a => simp

theorem flip_idx_lt {w h r c : Nat} (hr : r < h) (hc : c < w) :
    (h - 1 - r) * w + c < h * w := by
  have h1 : h - 1 - r ≤ h - 1 := Nat.sub_le _ _
  have h2 : (h - 1 - r) * w ≤ (h - 1) * w := Nat.mul_le_mul_right w h1
  have h4 := Nat.succ_mul (h - 1) w
  have h5 : (h - 1).succ = h := by omega
  rw [h5] at h4
  omega

theorem mem_pixelOrder {w h r c : Nat} (hr : r < h) (hc : c < w) :
    (r, c) ∈ pixelOrder w h := by
  unfold pixelOrder
  simp only [List.mem_flatMap, List.mem_reverse, List.mem_range, List.mem_map]
  exact ⟨r, hr, ⟨c, hc, rfl⟩⟩

theorem quadsColor_len (luma : Bool) (name : List Char) (palette : List ℚ)
    (pixels : List Nat) (w h : Nat) (hpal : palette.length = 768)
    (hv : ∀ v ∈ pixels, v < 256) :
    ∀ x ∈ (pixelOrder w h).map (fun rc => quadColor luma name palette (srcAt pixels w rc)),
      x.length = 4 := by
  intro x hx
  simp only [List.mem_map] at hx
  obtain ⟨rc, _, rfl⟩ := hx
  exact quadColor_length _ _ _ _ hpal (getD_lt_256 pixels hv _)

theorem quadsEmit_len (name : List Char) (palette : List ℚ)
    (pixels : List Nat) (w h : Nat) (hpal : palette.length = 768)
    (hv : ∀ v ∈ pixels, v < 256) :
    ∀ x ∈ (pixelOrder w h).map (fun rc => quadEmit name palette (srcAt pixels w rc)),
      x.length = 4 := by
  intro x hx
  simp only [List.mem_map] at hx
  obtain ⟨rc, _, rfl⟩ := hx
  exact quadEmit_length _ _ _ hpal (getD_lt_256 pixels hv _)

/-- The color-buffer quadruple at flipped position `(h-1-r, c)` is the color
quadruple of source pixel `(r, c)`. -/
theorem classify_rgba_chunk (luma : Bool) (name : List Char) (palette : List ℚ)
    (pixels : List Nat) (w h r c : Nat) (hpal : palette.length = 768)
    (hv : ∀ v ∈ pixels, v < 256) (hr : r < h) (hc : c < w) :
    ((classify luma name palette pixels w h).rgba.drop (4 * ((h - 1 - r) * w + c))).take 4
      = quadColor luma name palette (pixels.getD (r * w + c) 0) := by
  rw [classify_eq]
  have hidx : (h - 1 - r) * w + c
      < ((pixelOrder w h).map (fun rc => quadColor luma name palette (srcAt pixels w rc))).length := by
    rw [List.length_map, pixelOrder_length]
    exact flip_idx_lt hr hc
  rw [flatten_chunk _ _ (quadsColor_len luma name palette pixels w h hpal hv) hidx,
    getD_map_of_lt _ _ _ (0, 0) _ (by simpa [pixelOrder_length] using flip_idx_lt hr hc),
    pixelOrder_getD w h r c hr hc]
  rfl

/-- The emission-buffer quadruple at flipped position `(h-1-r, c)`, when the
emission buffer was materialized, is the emission quadruple of source pixel
`(r, c)` (either the palette color or the `(0,0,0,1)` filler). -/
theorem classify_emit_chunk (luma : Bool) (name : List Char) (palette : List ℚ)
    (pixels : List Nat) (w h r c : Nat) (hpal : palette.length = 768)
    (hv : ∀ v ∈ pixels, v < 256) (hr : r < h) (hc : c < w)
    (hne : (classify luma name palette pixels w h).emit ≠ []) :
    ((classify luma name palette pixels w h).emit.drop (4 * ((h - 1 - r) * w + c))).take 4
      = quadEmit name palette (pixels.getD (r * w + c) 0) := by
  rw [classify_eq] at hne ⊢
  by_cases hany : (pixelOrder w h).any (fun rc => glowP name (srcAt pixels w rc)) = true
  · simp only [hany, if_true]
    have hidx : (h - 1 - r) * w + c
        < ((pixelOrder w h).map (fun rc => quadEmit name palette (srcAt pixels w rc))).length := by
      rw [List.length_map, pixelOrder_length]
      exact flip_idx_lt hr hc
    rw [flatten_chunk _ _ (quadsEmit_len name palette pixels w h hpal hv) hidx,
      getD_map_of_lt _ _ _ (0, 0) _ (by simpa [pixelOrder_length] using flip_idx_lt hr hc),
      pixelOrder_getD w h r c hr hc]
    rfl
  · exfalso
    apply hne
    simp [hany]

theorem glowP_alpha {name : List Char} {pixel : Nat} (hg : glowP name pixel = true) :
    alphaOf name pixel = true := by
  unfold glowP at hg
  cases halpha : alphaOf name pixel <;> simp [halpha] at hg ⊢

theorem getD3_concat (l : List ℚ) (x : ℚ) (hl : l.length = 3) : (l ++ [x]).getD 3 0 = x := by
  rw [List.getD_eq_getElem?_getD, List.getElem?_append_right (by omega)]
  simp [hl]

/-- The fourth component of the color quadruple is always the encoded `alpha`
boolean of source line 242 (every branch of lines 245-253 appends it, the
cut-out-luma branch appending the literal `1` with `alpha` necessarily true). -/
theorem quadColor_getD3 (luma : Bool) (name : List Char) (palette : List ℚ) (pixel : Nat)
    (hpal : palette.length = 768) (hv : pixel < 256) :
    (quadColor luma name palette pixel).getD 3 0 = boolToQ (alphaOf name pixel) := by
  have hc3 := colorOf_length palette pixel hpal hv
  unfold quadColor
  split
  · rename_i hg
    split
    · rw [glowP_alpha hg]
      rfl
    · exact getD3_concat _ _ hc3
  · exact getD3_concat _ _ hc3

theorem boolToQ_eq_zero (b : Bool) : boolToQ b = 0 ↔ b = false := by
  cases b <;> simp [boolToQ]

theorem alphaOf_eq_false (name : List Char) (pixel : Nat) :
    alphaOf name pixel = false ↔ (pixel = 255 ∧ name.headD ' ' = '{') := by
  unfold alphaOf
  simp

/-- C2: in every decoded color buffer, the emitted alpha component of the
pixel coming from source row `r`, column `c` is `0` if and only if the source
index value is `255` and the texture name's first character is `{` (source
line 242). -/
theorem claim_c2_transparent_alpha (luma : Bool) (name : List Char) (palette : List ℚ)
    (pixels : List Nat) (w h r c : Nat) (hpal : palette.length = 768)
    (hv : ∀ v ∈ pixels, v < 256) (hr : r < h) (hc : c < w) (hname : name ≠ []) :
    ((((classify luma name palette pixels w h).rgba.drop
        (4 * ((h - 1 - r) * w + c))).take 4).getD 3 0 = 0)
    ↔ (pixels.getD (r * w + c) 0 = 255 ∧ name.headD ' ' = '{') := by
  rw [classify_rgba_chunk luma name palette pixels w h r c hpal hv hr hc,
    quadColor_getD3 luma name palette _ hpal (getD_lt_256 pixels hv _),
    boolToQ_eq_zero, alphaOf_eq_false]

/-- Witness for C2: a 1×1 index buffer `[255]` named `{fence` decodes with
alpha `0`, and the same buffer named `metal1` decodes with alpha not `0`. -/
theorem claim_c2_transparent_alpha_witness :
    (((((classify false ['{', 'f', 'e', 'n', 'c', 'e'] (List.replicate 768 0) [255] 1 1).rgba.drop
        (4 * ((1 - 1 - 0) * 1 + 0))).take 4).getD 3 0 = 0)
      ↔ ([255].getD (0 * 1 + 0) 0 = 255
          ∧ (['{', 'f', 'e', 'n', 'c', 'e'] : List Char).headD ' ' = '{'))
    ∧ ¬((((classify false ['m', 'e', 't', 'a', 'l', '1'] (List.replicate 768 0) [255] 1 1).rgba.drop
        (4 * ((1 - 1 - 0) * 1 + 0))).take 4).getD 3 0 = 0) := by
  constructor
  · exact claim_c2_transparent_alpha false ['{', 'f', 'e', 'n', 'c', 'e'] (List.replicate 768 0)
      [255] 1 1 0 0 (List.length_replicate 768 0) (by decide) (by decide) (by decide) (by decide)
  · intro h0
    have hm := (claim_c2_transparent_alpha false ['m', 'e', 't', 'a', 'l', '1']
      (List.replicate 768 0) [255] 1 1 0 0 (List.length_replicate 768 0) (by decide) (by decide)
      (by decide) (by decide)).mp h0
    exact absurd hm.2 (by decide)

/-- C3: a fullbright pixel (index value at least 224, texture name not
starting with "sky" or "*", pixel not transparent) has its palette color
written into the emission buffer; with cut-out-luma disabled the color buffer
receives the identical RGBA quadruple at that position, and with cut-out-luma
enabled the color buffer receives exactly `(0,0,0,1)` (source lines 243-257). -/
theorem claim_c3_fullbright (name : List Char) (palette : List ℚ)
    (pixels : List Nat) (w h r c : Nat) (hpal : palette.length = 768)
    (hv : ∀ v ∈ pixels, v < 256) (hr : r < h) (hc : c < w)
    (hfb : 224 ≤ pixels.getD (r * w + c) 0)
    (hsky : pyStartswith ['s', 'k', 'y'] name = false)
    (hstar : pyStartswith ['*'] name = false)
    (htr : ¬(pixels.getD (r * w + c) 0 = 255 ∧ name.headD ' ' = '{')) :
    (∀ luma : Bool,
      ((classify luma name palette pixels w h).emit.drop (4 * ((h - 1 - r) * w + c))).take 4
        = colorOf palette (pixels.getD (r * w + c) 0) ++ [1])
    ∧ (((classify false name palette pixels w h).rgba.drop (4 * ((h - 1 - r) * w + c))).take 4
        = colorOf palette (pixels.getD (r * w + c) 0) ++ [1])
    ∧ (((classify true name palette pixels w h).rgba.drop (4 * ((h - 1 - r) * w + c))).take 4
        = [0, 0, 0, 1]) := by
  have halpha : alphaOf name (pixels.getD (r * w + c) 0) = true := by
    cases ha : alphaOf name (pixels.getD (r * w + c) 0)
    · exact absurd ((alphaOf_eq_false _ _).mp ha) htr
    · rfl
  have hnotfb : notfbOf name (pixels.getD (r * w + c) 0) = false := by
    unfold notfbOf
    rw [hsky, hstar]
    simp only [Bool.or_false]
    rw [decide_eq_false_iff_not]
    omega
  have hglow : glowP name (pixels.getD (r * w + c) 0) = true := by
    unfold glowP
    rw [halpha, hnotfb]
    rfl
  have hany : (pixelOrder w h).any (fun rc => glowP name (srcAt pixels w rc)) = true := by
    rw [List.any_eq_true]
    exact ⟨(r, c), mem_pixelOrder hr hc, hglow⟩
  have hne : ∀ luma : Bool, (classify luma name palette pixels w h).emit ≠ [] := by
    intro luma
    rw [classify_eq]
    simp only [hany, if_true]
    intro hnil
    have hlen := flatten_length_const 4 _ (quadsEmit_len name palette pixels w h hpal hv)
    rw [hnil] at hlen
    simp only [List.length_nil, List.length_map, pixelOrder_length] at hlen
    have hpos : 0 < h * w := Nat.mul_pos (by omega) (by omega)
    omega
  have hqe : quadEmit name palette (pixels.getD (r * w + c) 0)
      = colorOf palette (pixels.getD (r * w + c) 0) ++ [1] := by
    unfold quadEmit
    rw [if_pos hglow, halpha]
    rfl
  refine ⟨?_, ?_, ?_⟩
  · intro luma
    rw [classify_emit_chunk luma name palette pixels w h r c hpal hv hr hc (hne luma)]
    exact hqe
  · rw [classify_rgba_chunk false name palette pixels w h r c hpal hv hr hc]
    unfold quadColor
    rw [if_pos hglow, halpha]
    rfl
  · rw [classify_rgba_chunk true name palette pixels w h r c hpal hv hr hc]
    unfold quadColor
    rw [if_pos hglow]
    rfl

/-- Witness for C3: index value 230 in a 1×1 texture named `metal1`. -/
theorem claim_c3_fullbright_witness :
    (∀ luma : Bool,
      ((classify luma ['m', 'e', 't', 'a', 'l', '1'] (List.replicate 768 0) [230] 1 1).emit.drop
        (4 * ((1 - 1 - 0) * 1 + 0))).take 4
        = colorOf (List.replicate 768 0) ([230].getD (0 * 1 + 0) 0) ++ [1])
    ∧ (((classify false ['m', 'e', 't', 'a', 'l', '1'] (List.replicate 768 0) [230] 1 1).rgba.drop
        (4 * ((1 - 1 - 0) * 1 + 0))).take 4
        = colorOf (List.replicate 768 0) ([230].getD (0 * 1 + 0) 0) ++ [1])
    ∧ (((classify true ['m', 'e', 't', 'a', 'l', '1'] (List.replicate 768 0) [230] 1 1).rgba.drop
        (4 * ((1 - 1 - 0) * 1 + 0))).take 4
        = [0, 0, 0, 1]) := by
  have h := claim_c3_fullbright ['m', 'e', 't', 'a', 'l', '1'] (List.replicate 768 0) [230] 1 1 0 0
    (List.length_replicate 768 0) (by decide) (by decide) (by decide) (by decide) (by decide)
    (by decide) (by decide)
  exact ⟨h.1, h.2.1, h.2.2⟩

/-- C4: the color buffer always has length `w*h*4`, and when the emission
buffer was materialized (lazily, on the first fullbright pixel, back-filled
for earlier positions) its final length equals the color buffer's length. -/
theorem claim_c4_buffer_lengths (luma : Bool) (name : List Char) (palette : List ℚ)
    (pixels : List Nat) (w h : Nat) (hpal : palette.length = 768)
    (hv : ∀ v ∈ pixels, v < 256) :
    (classify luma name palette pixels w h).rgba.length = w * h * 4
    ∧ ((classify luma name palette pixels w h).emit = []
        ∨ (classify luma name palette pixels w h).emit.length
            = (classify luma name palette pixels w h).rgba.length) := by
  have hcolor : (classify luma name palette pixels w h).rgba.length = w * h * 4 := by
    rw [classify_eq]
    show (List.flatten _).length = w * h * 4
    rw [flatten_length_const 4 _ (quadsColor_len luma name palette pixels w h hpal hv),
      List.length_map, pixelOrder_length]
    ring
  refine ⟨hcolor, ?_⟩
  by_cases hany : (pixelOrder w h).any (fun rc => glowP name (srcAt pixels w rc)) = true
  · right
    have hemit : (classify luma name palette pixels w h).emit
        = ((pixelOrder w h).map (fun rc => quadEmit name palette (srcAt pixels w rc))).flatten := by
      rw [classify_eq]
      simp only [hany, if_true]
    rw [hemit, hcolor,
      flatten_length_const 4 _ (quadsEmit_len name palette pixels w h hpal hv),
      List.length_map, pixelOrder_length]
    ring
  · left
    rw [classify_eq]
    simp only [Bool.not_eq_true] at hany
    simp [hany]

/-- Witness for C4 on a 2×1 texture with one fullbright pixel. -/
theorem claim_c4_buffer_lengths_witness :
    (classify false ['m'] (List.replicate 768 0) [230, 0] 2 1).rgba.length = 2 * 1 * 4
    ∧ ((classify false ['m'] (List.replicate 768 0) [230, 0] 2 1).emit = []
        ∨ (classify false ['m'] (List.replicate 768 0) [230, 0] 2 1).emit.length
            = (classify false ['m'] (List.replicate 768 0) [230, 0] 2 1).rgba.length) :=
  claim_c4_buffer_lengths false ['m'] (List.replicate 768 0) [230, 0] 2 1
    (List.length_replicate 768 0) (by decide)

/-- C5: the output buffers are vertically flipped relative to storage: the
source pixel at 0-based top-to-bottom row `r`, column `c` produces the
quadruple stored at output row `h-1-r`, column `c` (flat position
`(h-1-r)*w + c`), both in the color buffer and, when it was materialized, in
the emission buffer (source lines 238-239 iterate rows in reversed order while
appending to the output). -/
theorem claim_c5_vertical_flip (luma : Bool) (name : List Char) (palette : List ℚ)
    (pixels : List Nat) (w h r c : Nat) (hpal : palette.length = 768)
    (hv : ∀ v ∈ pixels, v < 256) (hr : r < h) (hc : c < w) :
    (((classify luma name palette pixels w h).rgba.drop (4 * ((h - 1 - r) * w + c))).take 4
        = quadColor luma name palette (pixels.getD (r * w + c) 0))
    ∧ ((classify luma name palette pixels w h).emit ≠ [] →
        ((classify luma name palette pixels w h).emit.drop (4 * ((h - 1 - r) * w + c))).take 4
          = quadEmit name palette (pixels.getD (r * w + c) 0)) :=
  ⟨classify_rgba_chunk luma name palette pixels w h r c hpal hv hr hc,
    fun hne => classify_emit_chunk luma name palette pixels w h r c hpal hv hr hc hne⟩

/-- Witness for C5: on a 1×2 texture (two rows), the bottom source row `r = 1`
lands at output position 0. -/
theorem claim_c5_vertical_flip_witness :
    (((classify false ['m'] (List.replicate 768 0) [7, 9] 1 2).rgba.drop
        (4 * ((2 - 1 - 1) * 1 + 0))).take 4
      = quadColor false ['m'] (List.replicate 768 0) ([7, 9].getD (1 * 1 + 0) 0))
    ∧ ((classify false ['m'] (List.replicate 768 0) [7, 9] 1 2).emit ≠ [] →
        ((classify false ['m'] (List.replicate 768 0) [7, 9] 1 2).emit.drop
            (4 * ((2 - 1 - 1) * 1 + 0))).take 4
          = quadEmit ['m'] (List.replicate 768 0) ([7, 9].getD (1 * 1 + 0) 0)) :=
  claim_c5_vertical_flip false ['m'] (List.replicate 768 0) [7, 9] 1 2 1 0
    (List.length_replicate 768 0) (by decide) (by decide) (by decide)

/-- Little-endian value of a byte list (least significant byte first). -/
def leNat (bs : List Nat) : Nat := bs.foldr (fun b acc => b + 256 * acc) 0

/-- Reinterpret an unsigned 32-bit value as Python's signed `<l`. -/
def i32 (n : Nat) : Int := if n < 2 ^ 31 then (n : Int) else (n : Int) - 2 ^ 32

/-- Python `f.read(n)` at absolute position `pos` (returns at most `n` bytes). -/
def readN (file : List Nat) (pos n : Nat) : List Nat := (file.drop pos).take n

/-- Python exceptions the importer can raise.  `execute` installs no handler,
so any of them aborts the whole import, including the remaining batch files. -/
inductive PyErr where
  | structError
  | indexError
  | valueError
  | keyError
  | unicodeError
  | attributeError
deriving DecidableEq, Repr

/-- One WAD2 directory entry, unpacked with `'<3lcch16s'` (source line 106):
three signed i32 (offset, disk size, full size), the type byte, the
compression byte, a 2-byte pad and a 16-byte name field. -/
structure WadEntry where
  offset : Int
  dsize : Int
  fsize : Int
  typ : Nat
  comp : Nat
  pad : Nat
  nameBytes : List Nat
deriving DecidableEq, Repr

/-- Unpack one 32-byte little-endian directory record (`'<'` means packed, no
alignment padding). -/
def mkEntry (bs : List Nat) : WadEntry :=
  { offset := i32 (leNat (bs.take 4))
    dsize := i32 (leNat ((bs.drop 4).take 4))
    fsize := i32 (leNat ((bs.drop 8).take 4))
    typ := (bs.drop 12).headD 0
    comp := (bs.drop 13).headD 0
    pad := leNat ((bs.drop 14).take 2)
    nameBytes := bs.drop 16 }

/-- Read `n` consecutive WAD2 directory records from `pos` (source lines
107-109); a short read makes `struct.unpack` raise `struct.error`. -/
def parseDir (file : List Nat) (pos : Nat) : Nat → Except PyErr (List WadEntry)
  | 0 => .ok []
  | n + 1 =>
      let bs := readN file pos 32
      if bs.length = 32 then
        match parseDir file (pos + 32) n with
        | .ok rest => .ok (mkEntry bs :: rest)
        | .error e => .error e
      else .error .structError

/-- Read `n` BSP texture-directory offsets (source lines 115-117): each a
signed i32 made absolute by adding the directory offset; the synthesized
entry mirrors `[offset, 0, 0, b'D', 0, 0, b'']`. -/
def parseBspDir (file : List Nat) (pos : Nat) (diroffset : Int) :
    Nat → Except PyErr (List WadEntry)
  | 0 => .ok []
  | n + 1 =>
      let bs := readN file pos 4
      if bs.length = 4 then
        match parseBspDir file (pos + 4) diroffset n with
        | .ok rest => .ok ({ offset := i32 (leNat bs) + diroffset, dsize := 0, fsize := 0,
                             typ := 68, comp := 0, pad := 0, nameBytes := [] } :: rest)
        | .error e => .error e
      else .error .structError

/-- Container detection and directory enumeration (source lines 101-117):
`some entries` for a WAD2 (`b'WAD2'`) or BSP (`b'BSP2'` or little-endian 29)
signature, `none` when the signature matches neither and the file falls
through to the external image loader (line 120).  For WAD2, the 8-byte header
is `'<2l' (numentries, diroffset)`; for BSP the 120 bytes after the signature
are `'<30l'` with field 4 the texture-directory offset, followed there by a
count and that many relative offsets.  A negative seek target raises
`ValueError`; a negative entry count makes `range(numentries)` empty (`toNat`
of a negative is `0`). -/
def parseEntries (file : List Nat) : Except PyErr (Option (List WadEntry)) :=
  let sig := readN file 0 4
  if sig = [87, 65, 68, 50] then
    let hdr := readN file 4 8
    if hdr.length = 8 then
      let numentries := i32 (leNat (hdr.take 4))
      let diroffset := i32 (leNat (hdr.drop 4))
      if diroffset < 0 then .error .valueError
      else match parseDir file diroffset.toNat numentries.toNat with
        | .ok es => .ok (some es)
        | .error e => .error e
    else .error .structError
  else if sig = [66, 83, 80, 50] ∨ sig = [29, 0, 0, 0] then
    let hdr := readN file 4 120
    if hdr.length = 120 then
      let diroffset := i32 (leNat ((hdr.drop 16).take 4))
      if diroffset < 0 then .error .valueError
      else
        let cnt := readN file diroffset.toNat 4
        if cnt.length = 4 then
          match parseBspDir file (diroffset.toNat + 4) diroffset (i32 (leNat cnt)).toNat with
          | .ok es => .ok (some es)
          | .error e => .error e
        else .error .structError
    else .error .structError
  else .ok none

/-- Source line 150 / 176: `bytes.split(b'\x00')[0].decode('ascii')` — take up
to the first NUL and decode; a byte of 128 or above raises
`UnicodeDecodeError`. -/
def pySplitNulDecode (bs : List Nat) : Except PyErr (List Char) :=
  let first := bs.takeWhile (fun b => b ≠ 0)
  if first.all (fun b => b < 128) then .ok (first.map (fun b => Char.ofNat b))
  else .error .unicodeError

/-- One decoded lump ready for pixel classification: its name, size, index
buffer and the palette to decode it with. -/
structure Lump where
  name : List Char
  w : Nat
  h : Nat
  pixels : List Nat
  palette : List ℚ
deriving DecidableEq, Repr

/-- The per-lump decode dispatch, source lines 147-190.  Crucially, line 151
(`palette = pal_float`) resets the palette to the default at the start of
EVERY iteration, so each branch below carries `pal_float` except the
`b'@'` palette branch, which alone carries the newly parsed custom palette
(for its own synthetic 16×16 index image `bytearray(range(256))`).  Dispatch
order is name `CONCHARS`, name `CONBACK`, type `b'D'` (68, miptexture, whose
name comes from the embedded 40-byte `'<16s6L'` header and whose index buffer
sits at lump offset + first mip offset), type `b'B'` (66, statusbar, sizes
`'<2l'`), type `b'@'` (64, palette, 768 raw bytes), otherwise skip with a
warning (`.ok none`).  A short header read raises `struct.error`; a short
pixel read surfaces as `IndexError` in the pixel loop (line 240); a negative
lump offset makes `wad.seek` raise `ValueError`. -/
def decodeEntry (file : List Nat) (e : WadEntry) : Except PyErr (Option Lump) :=
  if e.offset < 0 then .error .valueError else
  match pySplitNulDecode e.nameBytes with
  | .error err => .error err
  | .ok name =>
    let off := e.offset.toNat
    if name = ['C', 'O', 'N', 'C', 'H', 'A', 'R', 'S'] then
      let px := readN file off (128 * 128)
      if px.length < 128 * 128 then .error .indexError
      else .ok (some ⟨name, 128, 128, px, pal_float⟩)
    else if name = ['C', 'O', 'N', 'B', 'A', 'C', 'K'] then
      let px := readN file off (320 * 200)
      if px.length < 320 * 200 then .error .indexError
      else .ok (some ⟨name, 320, 200, px, pal_float⟩)
    else if e.typ = 68 then
      let hd := readN file off 40
      if hd.length = 40 then
        match pySplitNulDecode (hd.take 16) with
        | .error err => .error err
        | .ok mname =>
          let mw := leNat ((hd.drop 16).take 4)
          let mh := leNat ((hd.drop 20).take 4)
          let mip0 := leNat ((hd.drop 24).take 4)
          let px := readN file (off + mip0) (mw * mh)
          if px.length < mw * mh then .error .indexError
          else .ok (some ⟨mname, mw, mh, px, pal_float⟩)
      else .error .structError
    else if e.typ = 66 then
      let hd := readN file off 8
      if hd.length = 8 then
        let sw := i32 (leNat (hd.take 4))
        let sh := i32 (leNat (hd.drop 4))
        let px := readN file (off + 8) (sw.toNat * sh.toNat)
        if px.length < sw.toNat * sh.toNat then .error .indexError
        else .ok (some ⟨name, sw.toNat, sh.toNat, px, pal_float⟩)
      else .error .structError
    else if e.typ = 64 then
      let pb := readN file off 768
      if pb.length = 768 then
        .ok (some ⟨name, 16, 16, List.range 256, pb.map (fun b => (b : ℚ) / 255)⟩)
      else .error .structError
    else .ok none

/-- A Blender image as far as the importer stores data in it: its name and
pixel buffer (empty for externally loaded loose images, whose pixel data the
importer never inspects). -/
structure Image where
  name : List Char
  rgba : List ℚ
deriving DecidableEq, Repr

/-- A Blender material as far as the importer stores data in it: its name and
its asset tags (`none` models `asset_data is None`, i.e. a material that was
never asset-marked). -/
structure Mat where
  name : List Char
  assetTags : Option (List (List Char))
deriving DecidableEq, Repr

/-- The importer's mutable context: `bpy.data.materials` (the global texture
registry keyed by normalized name), the `anim_seqs` ordered dict of stashed
sequence frames, the images created by `bpy.data.images.new`, and counters of
`bpy.data.images.load` / `bpy.data.images.remove` calls for loose images. -/
structure St where
  materials : List Mat
  animSeqs : List (List Char × List Image)
  images : List Image
  loadedImgs : Nat
  removedImgs : Nat
deriving DecidableEq, Repr

/-- The operator's options with their source-default values (lines 59-79). -/
structure Opts where
  assets : Bool
  cont : Bool
  rel : Bool
  luma : Bool
  turb : Bool
  scroll : Bool
  seq : Bool
  lerp : Bool
deriving DecidableEq, Repr

def defaultOpts : Opts :=
  { assets := true, cont := true, rel := false, luma := false,
    turb := true, scroll := true, seq := true, lerp := false }

def emptySt : St := ⟨[], [], [], 0, 0⟩

/-- `name in bpy.data.materials` / `bpy.data.materials[name]` (line 195). -/
def findMat (st : St) (name : List Char) : Option Mat :=
  st.materials.find? (fun m => decide (m.name = name))

/-- Line 198: `bpy.data.materials[name].asset_data.tags.new(cont_name)`. -/
def tagMat (st : St) (name tag : List Char) : St :=
  { st with materials := st.materials.map (fun m =>
      if m.name = name then { m with assetTags := m.assetTags.map (fun t => t ++ [tag]) } else m) }

def seqLookup (seqs : List (List Char × List Image)) (k : List Char) : Option (List Image) :=
  match seqs.find? (fun kv => decide (kv.1 = k)) with
  | some kv => some kv.2
  | none => none

def seqAppendKey (st : St) (k : List Char) (img : Image) : St :=
  { st with animSeqs := st.animSeqs.map (fun kv =>
      if kv.1 = k then (kv.1, kv.2 ++ [img]) else kv) }

def seqInsertKey (st : St) (k : List Char) (img : Image) : St :=
  { st with animSeqs := st.animSeqs ++ [(k, [img])] }

/-- Lines 206-210: whether a frame with this exact name is already stashed
under the key. -/
def alreadyStashed (st : St) (k name : List Char) : Bool :=
  match seqLookup st.animSeqs k with
  | some frames => frames.any (fun f => decide (f.name = name))
  | none => false

/-- Lines 200-204: `if name[0] == '+' and name[1] not in '0a'`, computing the
sequence key `('+0' if name[1] in '0123456789' else '+a') + name[2:]`.
Python's indexing raises IndexError on an empty name (at `name[0]`) and on the
one-character name `+` (at `name[1]`; short-circuit spares other
one-character names). -/
def seqGate (name : List Char) : Except PyErr (Option (List Char)) :=
  match name with
  | [] => .error .indexError
  | [c] => if c = '+' then .error .indexError else .ok none
  | c0 :: c1 :: rest =>
      if c0 = '+' ∧ ¬(c1 = '0' ∨ c1 = 'a') then
        .ok (some ((if c1 ∈ ['0', '1', '2', '3', '4', '5', '6', '7', '8', '9']
                    then ['+', '0'] else ['+', 'a']) ++ rest))
      else .ok none

/-- Lines 266-276: stash a decoded frame (and its emission image, if any)
under the sequence key.  When the key exists but its parallel emission list
(`seq_name + emit_suffix`) does not, line 271 raises `KeyError`. -/
def stashFrames (st : St) (suffix seqName : List Char) (img : Image) (emitImg : Option Image) :
    Except PyErr St :=
  match seqLookup st.animSeqs seqName with
  | some _ =>
      let st2 := seqAppendKey st seqName img
      match emitImg with
      | none => .ok st2
      | some e =>
          match seqLookup st2.animSeqs (seqName ++ suffix) with
          | some _ => .ok (seqAppendKey st2 (seqName ++ suffix) e)
          | none => .error .keyError
  | none =>
      let st2 := seqInsertKey st seqName img
      match emitImg with
      | none => .ok st2
      | some e => .ok (seqInsertKey st2 (seqName ++ suffix) e)

/-- Lines 279-367: create the standalone material.  Shader-node construction
is external; the modelled effect is the new registry entry, asset-marked and
tagged with the container name when `option_assets` is on (lines 356-358). -/
def createMat (o : Opts) (contName : List Char) (st : St) (name : List Char) : St :=
  { st with materials := st.materials
      ++ [{ name := name, assetTags := if o.assets then some [contName] else none }] }

/-- Lines 219-264 for a WAD/BSP lump: run the pixel classifier, create the
image (and the `name + emit_suffix` emission image when `pix_emit` is
truthy), then stash the frame or create the material. -/
def buildLump (o : Opts) (suffix contName : List Char) (st : St) (l : Lump)
    (name : List Char) (gate : Option (List Char)) : Except PyErr St :=
  let pix := classify o.luma name l.palette l.pixels l.w l.h
  let img : Image := ⟨name, pix.rgba⟩
  let emitImg : Option Image :=
    if pix.emit.isEmpty then none else some ⟨name ++ suffix, pix.emit⟩
  let st1 := { st with images := st.images ++ [img]
      ++ (match emitImg with | some e => [e] | none => []) }
  match gate with
  | some seqName => stashFrames st1 suffix seqName img emitImg
  | none => .ok (createMat o contName st1 name)

/-- Lines 192-276 for one decoded WAD/BSP lump: lowercase the name (193), skip
a duplicate by tagging the existing material (195-199; `asset_data` is `None`
— modelled `assetTags = none` — when that material was created without asset
marking, and `.tags` on it raises AttributeError), run the animation-frame
gate (200-214: skip when sequences are disabled, drop an already-stashed
duplicate frame), then decode pixels and register (219 onward). -/
def stepLump (o : Opts) (suffix contName : List Char) (st : St) (l : Lump) :
    Except PyErr St :=
  let name := pyLower l.name
  match findMat st name with
  | some m =>
      match m.assetTags with
      | none => .error .attributeError
      | some _ => .ok (tagMat st name contName)
  | none =>
      match seqGate name with
      | .error e => .error e
      | .ok (some seqName) =>
          if o.seq = false then .ok st
          else if alreadyStashed st seqName name then .ok st
          else buildLump o suffix contName st l name (some seqName)
      | .ok none => buildLump o suffix contName st l name none

/-- One input file of a batch.  `bytes` is its content; the remaining fields
abstract the external collaborators touched only on the loose-image path:
`imgDepth` is the color depth `bpy.data.images.load` reports (line 121),
`relName` the result of `bpy.path.relpath` (line 158, `none` when it raises),
`lumaDepth` the depth of the `emit_suffix` sibling when `isfile` finds one
(lines 229-231), and `dirTag` the folder tag `directory.split('\\')[-2]`
(line 131). -/
structure FileInput where
  name : List Char
  dirTag : List Char
  bytes : List Nat
  imgDepth : Nat
  relName : Option (List Char)
  lumaDepth : Option Nat
deriving DecidableEq, Repr

/-- The `for wadentry in wadentries` loop (line 147) over a WAD/BSP
directory: decode each entry, skipping unrecognized lumps, threading the
registry state; any Python exception aborts the loop (and the batch). -/
def processEntries (o : Opts) (suffix : List Char) (file : List Nat) (contName : List Char) :
    St → List WadEntry → Except PyErr St
  | st, [] => .ok st
  | st, e :: rest =>
      match decodeEntry file e with
      | .error err => .error err
      | .ok none => processEntries o suffix file contName st rest
      | .ok (some l) =>
          match stepLump o suffix contName st l with
          | .error err => .error err
          | .ok st' => processEntries o suffix file contName st' rest

/-- Loose-image name derivation, lines 152-165: `file.name`, or the relative
path (stripped of leading/trailing slashes, backslashes mapped to slashes)
when `option_rel` is on; then the extension is cut at the LAST dot
(`rfind`, which returns −1 and so cuts the final character when there is no
dot) and `#` is mapped to `*`. -/
def looseName (o : Opts) (f : FileInput) : List Char :=
  let base :=
    if o.rel = false then f.name
    else match f.relName with
      | some n => pyReplace '\\' '/' (pyStrip ['/', '\\'] n)
      | none => f.name
  pyReplace '#' '*' (pySliceTo base (pyRfind base '.'))

/-- Lines 215-236 and 266-367 for a loose image that passed the duplicate and
sequence gates: a name ending in the glow suffix discards the loaded image and
produces nothing (215-217); otherwise the loaded image is renamed, a glow
sibling (if present and of nonzero depth) is loaded as the emission image, and
the frame is stashed or the material created. -/
def looseBuild (o : Opts) (suffix : List Char) (st : St) (f : FileInput)
    (name contName : List Char) (gate : Option (List Char)) : Except PyErr St :=
  if pyEndswith suffix name then
    .ok { st with removedImgs := st.removedImgs + 1 }
  else
    let img : Image := ⟨name, []⟩
    let stE :=
      match f.lumaDepth with
      | none => (st, (none : Option Image))
      | some d =>
          if d = 0 then
            ({ st with loadedImgs := st.loadedImgs + 1, removedImgs := st.removedImgs + 1 },
              (none : Option Image))
          else ({ st with loadedImgs := st.loadedImgs + 1 },
                some (⟨name ++ suffix, []⟩ : Image))
    match gate with
    | some seqName => stashFrames stE.1 suffix seqName img stE.2
    | none => .ok (createMat o contName stE.1 name)

/-- Lines 192-217 for the loose-image path: normalized name, duplicate tag
(no image removal on this skip), sequence gate (`continue` without removal
when sequences are disabled; removal when the frame is already stashed,
lines 211-214), then `looseBuild`. -/
def processLoose (o : Opts) (suffix : List Char) (st : St) (f : FileInput) : Except PyErr St :=
  let name := pyLower (looseName o f)
  match findMat st name with
  | some m =>
      match m.assetTags with
      | none => .error .attributeError
      | some _ => .ok (tagMat st name f.dirTag)
  | none =>
      match seqGate name with
      | .error e => .error e
      | .ok (some seqName) =>
          if o.seq = false then .ok st
          else if alreadyStashed st seqName name then
            .ok { st with removedImgs := st.removedImgs + 1 }
          else looseBuild o suffix st f name f.dirTag (some seqName)
      | .ok none => looseBuild o suffix st f name f.dirTag none

/-- One file of the batch (lines 95-367): WAD/BSP directories go through the
lump loop with the file name as container tag (line 133); an unrecognized
signature loads the file as an image, and zero reported depth skips just that
file with a warning (lines 120-124). -/
def processFile (o : Opts) (suffix : List Char) (st : St) (f : FileInput) : Except PyErr St :=
  match parseEntries f.bytes with
  | .error e => .error e
  | .ok (some entries) => processEntries o suffix f.bytes f.name st entries
  | .ok none =>
      let st1 := { st with loadedImgs := st.loadedImgs + 1 }
      if f.imgDepth = 0 then
        .ok { st1 with removedImgs := st1.removedImgs + 1 }
      else processLoose o suffix st1 f

/-- The batch loop `for file in self.files` (line 95).  There is no
try/except anywhere in `execute`, so an exception raised while processing one
file propagates and the remaining files are never reached. -/
def processBatch (o : Opts) (suffix : List Char) : St → List FileInput → Except PyErr St
  | st, [] => .ok st
  | st, f :: rest =>
      match processFile o suffix st f with
      | .error e => .error e
      | .ok st' => processBatch o suffix st' rest

/-- Lexicographic (code-point) strict comparison of names, Python `<`. -/
def chLt : List Char → List Char → Bool
  | [], [] => false
  | [], _ :: _ => true
  | _ :: _, [] => false
  | a :: as, b :: bs => if a = b then chLt as bs else decide (a < b)

/-- Lexicographic (code-point) comparison of names, Python `<=`. -/
def chLe : List Char → List Char → Bool
  | [], _ => true
  | _ :: _, [] => false
  | a :: as, b :: bs => if a = b then chLe as bs else decide (a < b)

def insertFrame (x : Image) : List Image → List Image
  | [] => [x]
  | y :: ys => if chLe x.name y.name then x :: y :: ys else y :: insertFrame x ys

/-- `sorted(anim_seqs[seq_name], key=lambda frame: frame.name)` (source lines
435-436 in `make_noodles_post`): a stable ascending sort by image name. -/
def sortFrames : List Image → List Image
  | [] => []
  | x :: xs => insertFrame x (sortFrames xs)

/-- Projection of a run result: the material names with their asset tags. -/
def matsOf (r : Except PyErr St) : Option (List (List Char × Option (List (List Char)))) :=
  match r with
  | .ok s => some (s.materials.map (fun m => (m.name, m.assetTags)))
  | .error _ => none

/-- Projection of a run result: the animation-sequence keys with the names of
their stashed member images. -/
def seqsOf (r : Except PyErr St) : Option (List (List Char × List (List Char))) :=
  match r with
  | .ok s => some (s.animSeqs.map (fun kv => (kv.1, kv.2.map Image.name)))
  | .error _ => none

/-- Projection of a run result: the names of the created (decoded) images. -/
def imgsOf (r : Except PyErr St) : Option (List (List Char)) :=
  match r with
  | .ok s => some (s.images.map Image.name)
  | .error _ => none

/-- Projection of a run result: the pixel buffer of the decoded image with
the given name. -/
def imgRgbaOf (r : Except PyErr St) (name : List Char) : Option (List ℚ) :=
  match r with
  | .ok s =>
      match s.images.find? (fun i => decide (i.name = name)) with
      | some i => some i.rgba
      | none => none
  | .error _ => none

/-- Little-endian 4-byte encoding, for building concrete test files. -/
def le32 (n : Nat) : List Nat :=
  [n % 256, n / 256 % 256, n / 65536 % 256, n / 16777216 % 256]

/-- A 16-byte NUL-padded name field, for building concrete test files. -/
def nameField (s : List Char) : List Nat :=
  s.map Char.toNat ++ List.replicate (16 - s.length) 0

/-- The default glow suffix `'_luma'` (preferences line 44; `execute` falls
back to it when the preference is empty, line 84). -/
def defSuffix : List Char := ['_', 'l', 'u', 'm', 'a']

/-- A batch entry for an archive file (the loader-related fields are unused on
the WAD/BSP path). -/
def wadFile (nm : List Char) (bs : List Nat) : FileInput :=
  { name := nm, dirTag := [], bytes := bs, imgDepth := 0, relName := none, lumaDepth := none }

/-- A WAD2 file whose directory holds a Palette lump `PAL` (768 bytes of 255,
i.e. an all-white custom palette) followed by a 1×1 statusbar lump `TEX1`
whose single pixel has index 0. -/
def wadC1 : List Nat :=
  [87, 65, 68, 50] ++ le32 2 ++ le32 12
  ++ (le32 76 ++ le32 768 ++ le32 768 ++ [64, 0, 0, 0] ++ nameField ['P', 'A', 'L'])
  ++ (le32 844 ++ le32 9 ++ le32 9 ++ [66, 0, 0, 0] ++ nameField ['T', 'E', 'X', '1'])
  ++ List.replicate 768 255
  ++ le32 1 ++ le32 1 ++ [0]

/-- A WAD2 file with three 1×1 statusbar lumps named `+0frame`, `+1frame`,
`+2frame`. -/
def wadFrames : List Nat :=
  [87, 65, 68, 50] ++ le32 3 ++ le32 12
  ++ (le32 108 ++ le32 9 ++ le32 9 ++ [66, 0, 0, 0]
      ++ nameField ['+', '0', 'f', 'r', 'a', 'm', 'e'])
  ++ (le32 117 ++ le32 9 ++ le32 9 ++ [66, 0, 0, 0]
      ++ nameField ['+', '1', 'f', 'r', 'a', 'm', 'e'])
  ++ (le32 126 ++ le32 9 ++ le32 9 ++ [66, 0, 0, 0]
      ++ nameField ['+', '2', 'f', 'r', 'a', 'm', 'e'])
  ++ le32 1 ++ le32 1 ++ [0] ++ le32 1 ++ le32 1 ++ [0] ++ le32 1 ++ le32 1 ++ [0]

/-- A WAD2 file with a single 1×1 statusbar lump named `WALL1`. -/
def wadWall : List Nat :=
  [87, 65, 68, 50] ++ le32 1 ++ le32 12
  ++ (le32 44 ++ le32 9 ++ le32 9 ++ [66, 0, 0, 0] ++ nameField ['W', 'A', 'L', 'L', '1'])
  ++ le32 1 ++ le32 1 ++ [0]

/-- A WAD2 file with a single 1×1 statusbar lump whose name is exactly `+`. -/
def wadPlus : List Nat :=
  [87, 65, 68, 50] ++ le32 1 ++ le32 12
  ++ (le32 44 ++ le32 9 ++ le32 9 ++ [66, 0, 0, 0] ++ nameField ['+'])
  ++ le32 1 ++ le32 1 ++ [0]

/-- A truncated WAD2 file: the signature followed by a single header byte, so
`struct.unpack('<2l', wad.read(8))` sees a short read. -/
def truncWad : List Nat := [87, 65, 68, 50] ++ [5]

end Wad2

deriving instance DecidableEq for Except

namespace Wad2

set_option maxRecDepth 8000 in
/-- Counterexample to C1: in `wadC1` a Palette lump with an all-255 custom
palette precedes the statusbar lump `TEX1` (one pixel, index 0).  The claim
predicts `TEX1` is decoded with the custom palette, which would give the
all-white quadruple `[1,1,1,1]`; the importer decodes it with the default
palette (line 151 resets the palette at the start of every lump iteration),
giving `[0,0,0,1]`. -/
theorem claim_c1_counterexample :
    imgRgbaOf (processFile defaultOpts defSuffix emptySt (wadFile ['c'] wadC1))
        ['t', 'e', 'x', '1'] = some (colorOf pal_float 0 ++ [1])
    ∧ colorOf pal_float 0 ++ [1] = [0, 0, 0, 1]
    ∧ (classify false ['t', 'e', 'x', '1']
        (List.map (fun b : Nat => (b : ℚ) / 255) (List.replicate 768 255)) [0] 1 1).rgba
        = colorOf (List.map (fun b : Nat => (b : ℚ) / 255) (List.replicate 768 255)) 0 ++ [1]
    ∧ colorOf (List.map (fun b : Nat => (b : ℚ) / 255) (List.replicate 768 255)) 0 ++ [1]
        = [1, 1, 1, 1]
    ∧ ([0, 0, 0, 1] : List ℚ) ≠ [1, 1, 1, 1] := by
  refine ⟨by rfl, ?_, by rfl, ?_, by norm_num⟩
  · have h2 : colorOf pal_float 0 = [0 / 255, 0 / 255, 0 / 255] := rfl
    rw [h2]
    norm_num
  · have h2 : colorOf (List.map (fun b : Nat => (b : ℚ) / 255) (List.replicate 768 255)) 0
        = [255 / 255, 255 / 255, 255 / 255] := rfl
    rw [h2]
    norm_num

/-- C1 amended: a custom palette parsed from a Palette lump is used only for
that lump's own synthetic 16×16 index image; every other decoded lump in the
file — whether before or after a Palette lump — carries the default palette,
because `palette = pal_float` (line 151) resets the active palette at the
start of each lump iteration. -/
theorem claim_c1_palette_reset (file : List Nat) (e : WadEntry) (l : Lump)
    (hdec : decodeEntry file e = .ok (some l)) :
    l.palette = pal_float
    ∨ (e.typ = 64 ∧ l.w = 16 ∧ l.h = 16 ∧ l.pixels = List.range 256) := by
  unfold decodeEntry at hdec
  dsimp only at hdec
  repeat' split at hdec
  all_goals
    first
      | exact Except.noConfusion hdec
      | (injection hdec with h1
         first
           | exact Option.noConfusion h1
           | (injection h1 with h2
              subst h2
              first
                | exact Or.inl rfl
                | exact Or.inr (by simp_all)))

set_option maxRecDepth 8000 in
/-- Witness for C1 (amended): the `TEX1` statusbar entry of `wadC1` decodes
with the default palette. -/
theorem claim_c1_palette_reset_witness :
    (⟨['T', 'E', 'X', '1'], 1, 1, [0], pal_float⟩ : Lump).palette = pal_float
    ∨ ((⟨844, 9, 9, 66, 0, 0, nameField ['T', 'E', 'X', '1']⟩ : WadEntry).typ = 64
        ∧ (⟨['T', 'E', 'X', '1'], 1, 1, [0], pal_float⟩ : Lump).w = 16
        ∧ (⟨['T', 'E', 'X', '1'], 1, 1, [0], pal_float⟩ : Lump).h = 16
        ∧ (⟨['T', 'E', 'X', '1'], 1, 1, [0], pal_float⟩ : Lump).pixels = List.range 256) :=
  claim_c1_palette_reset wadC1 ⟨844, 9, 9, 66, 0, 0, nameField ['T', 'E', 'X', '1']⟩
    ⟨['T', 'E', 'X', '1'], 1, 1, [0], pal_float⟩ (by rfl)

set_option maxRecDepth 8000 in
/-- C10: the animation-frame gate (line 200) indexes `name[1]` whenever
`name[0]` is `+`, so the one-character name `+` raises IndexError and the
whole import aborts rather than the lump being skipped or finalized; `wadPlus`
is a concrete WAD2 file triggering this. -/
theorem claim_c10_plus_name :
    seqGate ['+'] = .error .indexError
    ∧ (['+'] : List Char) ≠ []
    ∧ processFile defaultOpts defSuffix emptySt (wadFile ['p'] wadPlus) = .error .indexError
    ∧ seqGate ['x'] = .ok none := by
  refine ⟨by decide, by decide, by decide, by decide⟩

set_option maxRecDepth 8000 in
/-- Counterexample to C8: a batch of a truncated WAD2 (`truncWad`, header cut
short) followed by a well-formed WAD (`wadWall`) does not "continue with the
next file": the whole batch aborts with struct.error and the second file's
texture is never created, although that file processes fine on its own. -/
theorem claim_c8_counterexample :
    processBatch defaultOpts defSuffix emptySt [wadFile ['t'] truncWad, wadFile ['a'] wadWall]
      = .error .structError
    ∧ matsOf (processBatch defaultOpts defSuffix emptySt
        [wadFile ['t'] truncWad, wadFile ['a'] wadWall]) = none
    ∧ matsOf (processBatch defaultOpts defSuffix emptySt [wadFile ['a'] wadWall])
      = some [(['w', 'a', 'l', 'l', '1'], some [['a']])] := by
  refine ⟨by decide, by decide, by decide⟩

/-- C8 amended: per-file parse errors are NOT caught — an error while
processing one file (e.g. struct.error from a truncated header or directory)
aborts the entire batch, and the files after it are never processed.  The
only per-file skip that lets the batch continue is a file with an
unrecognized signature whose fallback image loads with zero color depth
(lines 120-124). -/
theorem claim_c8_error_propagation :
    (∀ (o : Opts) (suffix : List Char) (f : FileInput) (rest : List FileInput) (st : St)
        (e : PyErr), processFile o suffix st f = .error e →
        processBatch o suffix st (f :: rest) = .error e)
    ∧ (∀ (o : Opts) (suffix : List Char) (f : FileInput) (rest : List FileInput) (st : St),
        parseEntries f.bytes = .ok none → f.imgDepth = 0 →
        processBatch o suffix st (f :: rest)
          = processBatch o suffix
              { st with loadedImgs := st.loadedImgs + 1, removedImgs := st.removedImgs + 1 }
              rest) := by
  constructor
  · intro o suffix f rest st e h
    unfold processBatch
    rw [h]
  · intro o suffix f rest st hparse hdepth
    have h1 : processFile o suffix st f
        = .ok { st with loadedImgs := st.loadedImgs + 1, removedImgs := st.removedImgs + 1 } := by
      unfold processFile
      rw [hparse, if_pos hdepth]
    simp only [processBatch]
    rw [h1]

/-- Witness for C8 (amended), at the truncated file and one following file. -/
theorem claim_c8_error_propagation_witness :
    processBatch defaultOpts defSuffix emptySt [wadFile ['t'] truncWad, wadFile ['a'] wadWall]
      = .error .structError :=
  claim_c8_error_propagation.1 defaultOpts defSuffix (wadFile ['t'] truncWad)
    [wadFile ['a'] wadWall] emptySt .structError (by decide)

/-- Projection of a run result: the members of the animation sequence `k`, in
the order `make_noodles_post` wires them (sorted by image name, lines
435-436). -/
def sortedSeqOf (r : Except PyErr St) (k : List Char) : List (List Char) :=
  match r with
  | .ok s =>
      match seqLookup s.animSeqs k with
      | some frames => (sortFrames frames).map Image.name
      | none => []
  | .error _ => []

set_option maxRecDepth 8000 in
/-- C6: the sequence key replaces the second character of a `+`-name by `0`
when it is a decimal digit and by `a` otherwise, keeping the suffix, so
`+1frame` and `+2frame` both map to `+0frame`; `+0frame` itself fails the
gate (its second character is in `'0a'`) and becomes the standalone material
keyed `+0frame` that anchors the sequence; the stashed members are grouped
under that key and wired in ascending (lexicographic) name order. -/
theorem claim_c6_sequence_grouping :
    (∀ (c1 : Char) (rest : List Char),
        c1 ∈ ['0', '1', '2', '3', '4', '5', '6', '7', '8', '9'] → ¬(c1 = '0' ∨ c1 = 'a') →
        seqGate ('+' :: c1 :: rest) = .ok (some (['+', '0'] ++ rest)))
    ∧ (∀ (c1 : Char) (rest : List Char),
        c1 ∉ ['0', '1', '2', '3', '4', '5', '6', '7', '8', '9'] → ¬(c1 = '0' ∨ c1 = 'a') →
        seqGate ('+' :: c1 :: rest) = .ok (some (['+', 'a'] ++ rest)))
    ∧ seqGate ['+', '1', 'f', 'r', 'a', 'm', 'e'] = .ok (some ['+', '0', 'f', 'r', 'a', 'm', 'e'])
    ∧ seqGate ['+', '2', 'f', 'r', 'a', 'm', 'e'] = .ok (some ['+', '0', 'f', 'r', 'a', 'm', 'e'])
    ∧ seqGate ['+', '0', 'f', 'r', 'a', 'm', 'e'] = .ok none
    ∧ matsOf (processFile defaultOpts defSuffix emptySt (wadFile ['f'] wadFrames))
        = some [(['+', '0', 'f', 'r', 'a', 'm', 'e'], some [['f']])]
    ∧ seqsOf (processFile defaultOpts defSuffix emptySt (wadFile ['f'] wadFrames))
        = some [(['+', '0', 'f', 'r', 'a', 'm', 'e'],
            [['+', '1', 'f', 'r', 'a', 'm', 'e'], ['+', '2', 'f', 'r', 'a', 'm', 'e']])]
    ∧ sortedSeqOf (processFile defaultOpts defSuffix emptySt (wadFile ['f'] wadFrames))
        ['+', '0', 'f', 'r', 'a', 'm', 'e']
        = [['+', '1', 'f', 'r', 'a', 'm', 'e'], ['+', '2', 'f', 'r', 'a', 'm', 'e']]
    ∧ chLt ['+', '1', 'f', 'r', 'a', 'm', 'e'] ['+', '2', 'f', 'r', 'a', 'm', 'e'] = true := by
  refine ⟨?_, ?_, by decide, by decide, by decide, by decide, by decide, by decide, by decide⟩
  · intro c1 rest hd hna
    show (if '+' = '+' ∧ ¬(c1 = '0' ∨ c1 = 'a') then
        Except.ok (some ((if c1 ∈ ['0', '1', '2', '3', '4', '5', '6', '7', '8', '9']
          then ['+', '0'] else ['+', 'a']) ++ rest))
      else Except.ok none) = Except.ok (some (['+', '0'] ++ rest))
    rw [if_pos ⟨rfl, hna⟩, if_pos hd]
  · intro c1 rest hd hna
    show (if '+' = '+' ∧ ¬(c1 = '0' ∨ c1 = 'a') then
        Except.ok (some ((if c1 ∈ ['0', '1', '2', '3', '4', '5', '6', '7', '8', '9']
          then ['+', '0'] else ['+', 'a']) ++ rest))
      else Except.ok none) = Except.ok (some (['+', 'a'] ++ rest))
    rw [if_pos ⟨rfl, hna⟩, if_neg hd]

/-- Witness for C6 at the digit-style frame name `+1f`. -/
theorem claim_c6_sequence_grouping_witness :
    seqGate ('+' :: '1' :: ['f']) = .ok (some (['+', '0'] ++ ['f'])) :=
  claim_c6_sequence_grouping.1 '1' ['f'] (by decide) (by decide)

theorem tagMat_names (st : St) (name tag : List Char) :
    (tagMat st name tag).materials.map Mat.name = st.materials.map Mat.name := by
  unfold tagMat
  simp only [List.map_map]
  apply List.map_congr_left
  intro m _
  by_cases hm : m.name = name <;> simp [hm]

theorem findMat_none_not_mem {st : St} {name : List Char} (h : findMat st name = none) :
    ∀ m ∈ st.materials, m.name ≠ name := by
  unfold findMat at h
  rw [List.find?_eq_none] at h
  intro m hm
  simpa using h m hm

theorem stashFrames_fields (st : St) (suffix k : List Char) (img : Image)
    (emitImg : Option Image) (st' : St) (h : stashFrames st suffix k img emitImg = .ok st') :
    st'.materials = st.materials ∧ st'.images = st.images
      ∧ st'.loadedImgs = st.loadedImgs ∧ st'.removedImgs = st.removedImgs := by
  unfold stashFrames seqAppendKey seqInsertKey at h
  dsimp only at h
  repeat' split at h
  all_goals
    first
      | exact Except.noConfusion h
      | (injection h with h1
         subst h1
         exact ⟨rfl, rfl, rfl, rfl⟩)

theorem buildLump_names (o : Opts) (suffix contName : List Char) (st : St) (l : Lump)
    (name : List Char) (gate : Option (List Char)) (st' : St)
    (h : buildLump o suffix contName st l name gate = .ok st') :
    st'.materials.map Mat.name = st.materials.map Mat.name
    ∨ st'.materials.map Mat.name = st.materials.map Mat.name ++ [name] := by
  unfold buildLump at h
  dsimp only at h
  cases gate with
  | some k =>
      have hs := stashFrames_fields _ _ _ _ _ _ h
      exact Or.inl (by rw [hs.1])
  | none =>
      injection h with h1
      subst h1
      unfold createMat
      exact Or.inr (by simp)

theorem stepLump_names (o : Opts) (suffix contName : List Char) (st : St) (l : Lump) (st' : St)
    (h : stepLump o suffix contName st l = .ok st') :
    st'.materials.map Mat.name = st.materials.map Mat.name
    ∨ (findMat st (pyLower l.name) = none
        ∧ st'.materials.map Mat.name = st.materials.map Mat.name ++ [pyLower l.name]) := by
  unfold stepLump at h
  dsimp only at h
  repeat' split at h
  all_goals
    first
      | exact Except.noConfusion h
      | (injection h with h1
         subst h1
         first
           | exact Or.inl rfl
           | exact Or.inl (tagMat_names _ _ _))
      | (rcases buildLump_names _ _ _ _ _ _ _ _ h with h1 | h1
         exacts [Or.inl h1, Or.inr ⟨by assumption, h1⟩])

theorem looseBuild_names (o : Opts) (suffix : List Char) (st : St) (f : FileInput)
    (name contName : List Char) (gate : Option (List Char)) (st' : St)
    (h : looseBuild o suffix st f name contName gate = .ok st') :
    st'.materials.map Mat.name = st.materials.map Mat.name
    ∨ st'.materials.map Mat.name = st.materials.map Mat.name ++ [name] := by
  unfold looseBuild at h
  dsimp only at h
  repeat' split at h
  all_goals
    first
      | exact Except.noConfusion h
      | (have hs := stashFrames_fields _ _ _ _ _ _ h
         exact Or.inl (by rw [hs.1]))
      | (injection h with h1
         subst h1
         first
           | exact Or.inl rfl
           | (unfold createMat
              exact Or.inr (by simp)))

theorem processLoose_names (o : Opts) (suffix : List Char) (st : St) (f : FileInput) (st' : St)
    (h : processLoose o suffix st f = .ok st') :
    st'.materials.map Mat.name = st.materials.map Mat.name
    ∨ (findMat st (pyLower (looseName o f)) = none
        ∧ st'.materials.map Mat.name
            = st.materials.map Mat.name ++ [pyLower (looseName o f)]) := by
  unfold processLoose at h
  dsimp only at h
  repeat' split at h
  all_goals
    first
      | exact Except.noConfusion h
      | (injection h with h1
         subst h1
         first
           | exact Or.inl rfl
           | exact Or.inl (tagMat_names _ _ _))
      | (rcases looseBuild_names _ _ _ _ _ _ _ _ h with h1 | h1
         exacts [Or.inl h1, Or.inr ⟨by assumption, h1⟩])

theorem names_nodup_of_append {names : List (List Char)} {nm : List Char}
    (hn : names.Nodup) (hnot : nm ∉ names) : (names ++ [nm]).Nodup := by
  apply List.Nodup.append hn (List.nodup_singleton _)
  intro a ha hb
  simp only [List.mem_singleton] at hb
  subst hb
  exact hnot ha

theorem stepLump_nodup (o : Opts) (suffix contName : List Char) (st : St) (l : Lump) (st' : St)
    (h : stepLump o suffix contName st l = .ok st')
    (hn : (st.materials.map Mat.name).Nodup) : (st'.materials.map Mat.name).Nodup := by
  rcases stepLump_names _ _ _ _ _ _ h with he | ⟨hnone, he⟩
  · rw [he]
    exact hn
  · rw [he]
    apply names_nodup_of_append hn
    intro hmem
    obtain ⟨m, hm, hname⟩ := List.mem_map.mp hmem
    exact findMat_none_not_mem hnone m hm hname

theorem processLoose_nodup (o : Opts) (suffix : List Char) (st : St) (f : FileInput) (st' : St)
    (h : processLoose o suffix st f = .ok st')
    (hn : (st.materials.map Mat.name).Nodup) : (st'.materials.map Mat.name).Nodup := by
  rcases processLoose_names _ _ _ _ _ h with he | ⟨hnone, he⟩
  · rw [he]
    exact hn
  · rw [he]
    apply names_nodup_of_append hn
    intro hmem
    obtain ⟨m, hm, hname⟩ := List.mem_map.mp hmem
    exact findMat_none_not_mem hnone m hm hname

theorem processEntries_nodup (o : Opts) (suffix : List Char) (file : List Nat)
    (contName : List Char) :
    ∀ (es : List WadEntry) (st st' : St), processEntries o suffix file contName st es = .ok st' →
      (st.materials.map Mat.name).Nodup → (st'.materials.map Mat.name).Nodup
  | [], st, st', h, hn => by
      injection h with h1
      subst h1
      exact hn
  | e :: rest, st, st', h, hn => by
      unfold processEntries at h
      cases hd : decodeEntry file e with
      | error err =>
          rw [hd] at h
          exact Except.noConfusion h
      | ok dl =>
          rw [hd] at h
          cases dl with
          | none => exact processEntries_nodup o suffix file contName rest st st' h hn
          | some l =>
              dsimp only at h
              cases hs : stepLump o suffix contName st l with
              | error err =>
                  rw [hs] at h
                  exact Except.noConfusion h
              | ok st1 =>
                  rw [hs] at h
                  exact processEntries_nodup o suffix file contName rest st1 st' h
                    (stepLump_nodup _ _ _ _ _ _ hs hn)

theorem processFile_nodup (o : Opts) (suffix : List Char) (st : St) (f : FileInput) (st' : St)
    (h : processFile o suffix st f = .ok st')
    (hn : (st.materials.map Mat.name).Nodup) : (st'.materials.map Mat.name).Nodup := by
  unfold processFile at h
  cases hp : parseEntries f.bytes with
  | error e =>
      rw [hp] at h
      exact Except.noConfusion h
  | ok oe =>
      rw [hp] at h
      cases oe with
      | some entries => exact processEntries_nodup _ _ _ _ entries st st' h hn
      | none =>
          by_cases hd : f.imgDepth = 0
          · rw [if_pos hd] at h
            injection h with h1
            subst h1
            exact hn
          · rw [if_neg hd] at h
            exact processLoose_nodup o suffix _ f st' h hn

theorem processBatch_nodup (o : Opts) (suffix : List Char) :
    ∀ (files : List FileInput) (st st' : St), processBatch o suffix st files = .ok st' →
      (st.materials.map Mat.name).Nodup → (st'.materials.map Mat.name).Nodup
  | [], st, st', h, hn => by
      injection h with h1
      subst h1
      exact hn
  | f :: rest, st, st', h, hn => by
      unfold processBatch at h
      cases hf : processFile o suffix st f with
      | error e =>
          rw [hf] at h
          exact Except.noConfusion h
      | ok st1 =>
          rw [hf] at h
          exact processBatch_nodup o suffix rest st1 st' h
            (processFile_nodup _ _ _ _ _ hf hn)

set_option maxRecDepth 8000 in
/-- C7: material names in the registry stay pairwise distinct across a whole
batch (a duplicate normalized name is never re-registered, lines 195-199), and
concretely, importing two WAD files that both contain a lump named `WALL1`
yields exactly one material keyed `wall1`, carrying both files' container
tags, while only the first file's lump is decoded into an image. -/
theorem claim_c7_duplicate_suppression :
    (∀ (o : Opts) (suffix : List Char) (files : List FileInput) (st r : St),
        processBatch o suffix st files = .ok r →
        (st.materials.map Mat.name).Nodup → (r.materials.map Mat.name).Nodup)
    ∧ matsOf (processBatch defaultOpts defSuffix emptySt
        [wadFile ['a'] wadWall, wadFile ['b'] wadWall])
        = some [(['w', 'a', 'l', 'l', '1'], some [['a'], ['b']])]
    ∧ imgsOf (processBatch defaultOpts defSuffix emptySt
        [wadFile ['a'] wadWall, wadFile ['b'] wadWall])
        = some [['w', 'a', 'l', 'l', '1']] := by
  refine ⟨?_, by decide, by decide⟩
  intro o suffix files st r h hn
  exact processBatch_nodup o suffix files st r h hn

set_option maxRecDepth 8000 in
/-- Witness for C7: the two-file `WALL1` batch ends with a registry whose
material names are pairwise distinct. -/
theorem claim_c7_duplicate_suppression_witness :
    (((⟨[⟨['w', 'a', 'l', 'l', '1'], some [['a'], ['b']]⟩], [],
        [⟨['w', 'a', 'l', 'l', '1'], colorOf pal_float 0 ++ [1]⟩], 0, 0⟩ : St).materials.map
      Mat.name).Nodup) :=
  claim_c7_duplicate_suppression.1 defaultOpts defSuffix
    [wadFile ['a'] wadWall, wadFile ['b'] wadWall] emptySt
    ⟨[⟨['w', 'a', 'l', 'l', '1'], some [['a'], ['b']]⟩], [],
      [⟨['w', 'a', 'l', 'l', '1'], colorOf pal_float 0 ++ [1]⟩], 0, 0⟩
    (by rfl) (by decide)

set_option maxRecDepth 8000 in
/-- Counterexample to C9: a loose image `a_luma.png` whose derived normalized
name `a_luma` ends with the glow suffix is NOT discarded when a material of
that name already exists — the duplicate branch (lines 195-199) runs first,
tags the existing material and skips, leaving the loaded image in place
(`removedImgs` stays 0 while `loadedImgs` became 1). -/
theorem claim_c9_counterexample :
    pyEndswith defSuffix (pyLower (looseName defaultOpts
        ⟨['a', '_', 'l', 'u', 'm', 'a', '.', 'p', 'n', 'g'], ['t'],
          [137, 80, 78, 71], 24, none, none⟩)) = true
    ∧ processFile defaultOpts defSuffix
        ⟨[⟨['a', '_', 'l', 'u', 'm', 'a'], some []⟩], [], [], 0, 0⟩
        ⟨['a', '_', 'l', 'u', 'm', 'a', '.', 'p', 'n', 'g'], ['t'],
          [137, 80, 78, 71], 24, none, none⟩
      = .ok ⟨[⟨['a', '_', 'l', 'u', 'm', 'a'], some [['t']]⟩], [], [], 1, 0⟩ := by
  refine ⟨by decide, by decide⟩

/-- C9 amended: a loose image whose derived normalized name ends with the
glow suffix never yields a standalone material or stashed frame; the loaded
image is discarded provided the name is not already in the material registry,
decoding does not abort on a malformed name, and the file is not skipped by
the disabled-sequence gate (the duplicate-material and disabled-sequence skip
paths keep the loaded image). -/
theorem claim_c9_luma_skip (o : Opts) (suffix : List Char) (st : St) (f : FileInput)
    (hforeign : parseEntries f.bytes = .ok none) (hdepth : ¬f.imgDepth = 0)
    (hsuffix : pyEndswith suffix (pyLower (looseName o f)) = true)
    (hdup : findMat st (pyLower (looseName o f)) = none)
    (hgate : ∀ e : PyErr, seqGate (pyLower (looseName o f)) ≠ .error e)
    (hseq : o.seq = true ∨ seqGate (pyLower (looseName o f)) = .ok none) :
    processFile o suffix st f
      = .ok { st with loadedImgs := st.loadedImgs + 1, removedImgs := st.removedImgs + 1 } := by
  unfold processFile
  rw [hforeign, if_neg hdepth]
  unfold processLoose
  dsimp only
  have hdup' : findMat { st with loadedImgs := st.loadedImgs + 1 }
      (pyLower (looseName o f)) = none := hdup
  rw [hdup']
  cases hg : seqGate (pyLower (looseName o f)) with
  | error e => exact absurd hg (hgate e)
  | ok gate =>
      cases gate with
      | none =>
          dsimp only
          unfold looseBuild
          dsimp only
          rw [if_pos hsuffix]
      | some k =>
          dsimp only
          rcases hseq with hseqT | hseqG
          · rw [if_neg (by rw [hseqT]; exact fun hc => Bool.noConfusion hc)]
            by_cases hstash :
                alreadyStashed { st with loadedImgs := st.loadedImgs + 1 } k
                  (pyLower (looseName o f)) = true
            · rw [if_pos hstash]
            · rw [if_neg hstash]
              unfold looseBuild
              dsimp only
              rw [if_pos hsuffix]
          · rw [hseqG] at hg
            injection hg with hg1
            exact Option.noConfusion hg1

/-- Witness for C9 (amended): the fresh loose image `b_luma.png`. -/
theorem claim_c9_luma_skip_witness :
    processFile defaultOpts defSuffix emptySt
        ⟨['b', '_', 'l', 'u', 'm', 'a', '.', 'p', 'n', 'g'], ['t'],
          [137, 80, 78, 71], 24, none, none⟩
      = .ok { emptySt with loadedImgs := emptySt.loadedImgs + 1, removedImgs := emptySt.removedImgs + 1 } :=
  claim_c9_luma_skip defaultOpts defSuffix emptySt
    ⟨['b', '_', 'l', 'u', 'm', 'a', '.', 'p', 'n', 'g'], ['t'], [137, 80, 78, 71], 24, none, none⟩
    (by decide) (by decide) (by decide) (by decide)
    (fun e h => Except.noConfusion h) (Or.inl rfl)


end Wad2
